import Mathlib

/-!
# Event listing of the dashboard backend (`resource/event/eventcommon.go`)

A shallow embedding of the functions of `eventcommon.go` and theorems about them.

Conventions of the embedding:

* Go `string` is `String`; `len(s)` is the UTF-8 byte length `String.utf8ByteSize`.
* A Go slice is a `List`; a nil slice and an empty slice are both `[]`.
* A Go pointer that may be nil is an `Option`.
* A Go `(value, error)` result whose value is only read when the error is nil is an `Except`;
  where the code reads the value although it discards the error, both components are kept.
* A run-time panic (nil dereference, failed type assertion) is the outer `none` of an `Option`.
* Functions, constants and types that `eventcommon.go` uses from other files are parameters of
  the embedded functions (gathered in `Externals` and `Client`), or are modelled from the
  specification where a doc comment says so.
-/

set_option autoImplicit false

namespace Dashboard

/-! ## Data model: the fields of the `api` types that `eventcommon.go` reads -/

/-- A Go `error` value that is not nil, identified by its message. -/
structure GoError where
  msg : String
deriving DecidableEq, Repr

/-- The type `unversioned.Time`: a wrapper around `time.Time`, here an instant in nanoseconds. -/
structure UnversionedTime where
  Time : Int
deriving DecidableEq, Repr

/-- The type `api.ObjectMeta`. -/
structure ObjectMeta where
  Name : String
  Namespace : String
  UID : String
  CreationTimestamp : UnversionedTime
deriving DecidableEq, Repr

/-- The type `api.ObjectReference`. -/
structure ObjectReference where
  Kind : String
  Namespace : String
  Name : String
  UID : String
  FieldPath : String
deriving DecidableEq, Repr

/-- The type `api.EventSource`. -/
structure EventSource where
  Component : String
  Host : String
deriving DecidableEq, Repr

/-- The type `api.Event`. The Go field `Type` is `Type_` (`Type` is reserved in Lean);
`Count` is an `int32`, only ever copied. -/
structure Event where
  ObjectMeta : ObjectMeta
  InvolvedObject : ObjectReference
  Reason : String
  Message : String
  Source : EventSource
  FirstTimestamp : UnversionedTime
  LastTimestamp : UnversionedTime
  Count : Int
  Type_ : String
deriving DecidableEq, Repr

/-- The type `api.Pod`, reduced to its metadata (`pod.UID` is `pod.ObjectMeta.UID`). -/
structure Pod where
  ObjectMeta : ObjectMeta
deriving DecidableEq, Repr

/-- The type `api.Node`, reduced to its metadata. -/
structure Node where
  ObjectMeta : ObjectMeta
deriving DecidableEq, Repr

/-- The type `api.EventList`. -/
structure ApiEventList where
  Items : List Event
deriving DecidableEq, Repr

/-- The type `api.PodList`. -/
structure ApiPodList where
  Items : List Pod
deriving DecidableEq, Repr

/-- The constant `api.EventTypeNormal`. -/
def EventTypeNormal : String := "Normal"

/-- The constant `api.EventTypeWarning`. -/
def EventTypeWarning : String := "Warning"

/-- The constant `api.NamespaceAll`. -/
def NamespaceAll : String := ""

/-! ## Data model: the `common` and `dataselect` types -/

/-- The type `common.ListMeta`. -/
structure ListMeta where
  TotalItems : Nat
deriving DecidableEq, Repr

/-- The type `common.Event`, the model object built by `ToEvent`. The types `OM` and `TM` stand
for `common.ObjectMeta` and `common.TypeMeta`, whose declarations are in another file. -/
structure CommonEvent (OM TM : Type) where
  ObjectMeta : OM
  TypeMeta : TM
  Message : String
  SourceComponent : String
  SourceHost : String
  SubObject : String
  Count : Int
  FirstSeen : UnversionedTime
  LastSeen : UnversionedTime
  Reason : String
  Type_ : String
deriving DecidableEq, Repr

/-- The type `common.EventList`. -/
structure EventList (OM TM : Type) where
  ListMeta : ListMeta
  Events : List (CommonEvent OM TM)
deriving DecidableEq, Repr

/-- The type `dataselect.PropertyName`, a Go string type. -/
abbrev PropertyName := String

/-- Modelled from the spec: the constant `dataselect.NameProperty`, the property name `name`
of section 3; its declaration is in the dataselect package. -/
def NameProperty : PropertyName := "name"

/-- Modelled from the spec: the constant `dataselect.CreationTimestampProperty`, the property
name `creationTimestamp` of section 3; its declaration is in the dataselect package. -/
def CreationTimestampProperty : PropertyName := "creationTimestamp"

/-- Modelled from the spec: the constant `dataselect.NamespaceProperty`, the property name
`namespace` of section 3; its declaration is in the dataselect package. -/
def NamespaceProperty : PropertyName := "namespace"

/-- The values of the interface `dataselect.ComparableValue` that `EventCell.GetProperty`
builds. The nil interface value is `none` of `Option ComparableValue`. -/
inductive ComparableValue where
  | StdComparableString (s : String)
  | StdComparableTime (t : Int)
deriving DecidableEq, Repr

/-- The declaration `type EventCell api.Event`. -/
abbrev EventCell := Event

/-- The interface `dataselect.DataCell` by dynamic type: an `EventCell`, or a cell of another
resource kind (on which the type assertion of `fromCells` fails). -/
inductive DataCell where
  | eventCell (c : EventCell)
  | otherCell (kind : String)
deriving DecidableEq, Repr

/-- Modelled from the spec: the type `dataselect.DataSelectQuery`, the Query Specification of
section 3: filter predicates, sort keys (property, ascending) and pagination; its declaration is
in the dataselect package. -/
structure DataSelectQuery where
  Filters : List (PropertyName × String)
  SortKeys : List (PropertyName × Bool)
  PageIndex : Nat
  PageSize : Nat
deriving DecidableEq, Repr

/-- The functions and constants of the `common` and `dataselect` packages that `ToEvent` and
`CreateEventList` call. Their bodies are in other files, so every theorem quantifies over them. -/
structure Externals (OM TM : Type) where
  NewObjectMeta : ObjectMeta → OM
  NewTypeMeta : String → TM
  ResourceKindEvent : String
  GenericDataSelect : List DataCell → DataSelectQuery → List DataCell

/-- The calls on `client.Interface` made by `GetNodeEvents` and `GetNamespaceEvents`, each
returning the Go pair of a pointer (possibly nil) and an error (possibly nil), and the library
function `api.GetReference`, which returns a reference or an error. -/
structure Client where
  NodesGet : String → Option Node × Option GoError
  EventsSearch : String → ObjectReference → Option ApiEventList × Option GoError
  EventsList : String → Option ApiEventList × Option GoError
  GetReference : Option Node → Except GoError ObjectReference

/-! ## The functions of `eventcommon.go` -/

/-- The function `GetEvents`. `ParseSelector` is `fields.ParseSelector`;
`GetEventListChannelWithOptions ns sel` is the outcome read from the event-list channels
(list, then error) for the namespace and field selector, as a value-or-error result. -/
def GetEvents {Sel : Type} (ParseSelector : String → Except GoError Sel)
    (GetEventListChannelWithOptions : String → Sel → Except GoError ApiEventList)
    (ns resourceName : String) : Except GoError (List Event) :=
  match ParseSelector ("involvedObject.name=" ++ resourceName) with
  | .error err => .error err
  | .ok fieldSelector =>
    match GetEventListChannelWithOptions ns fieldSelector with
    | .error err => .error err
    | .ok eventList => .ok eventList.Items

/-- The function `GetPodsEvents`. `GetPodListChannelWithOptions ns sel` and
`GetEventListChannel ns` are the outcomes read from the pod-list and event-list channels, as
value-or-error results; `filterEventsByPodsUID` is the helper of the same package. -/
def GetPodsEvents (filterEventsByPodsUID : List Event → List Pod → List Event)
    (GetPodListChannelWithOptions : String → List (String × String) → Except GoError ApiPodList)
    (GetEventListChannel : String → Except GoError ApiEventList)
    (ns : String) (resourceSelector : List (String × String)) : Except GoError (List Event) :=
  match GetPodListChannelWithOptions ns resourceSelector with
  | .error err => .error err
  | .ok podList =>
    match GetEventListChannel ns with
    | .error err => .error err
    | .ok eventList => .ok (filterEventsByPodsUID eventList.Items podList.Items)

/-- The function `FillEventsType`: the loop `for i := range events` assigning `events[i].Type`
in place. `isFailedReason` and `FailedReasonPartials` are the helper and the pattern list of
the same package. -/
def FillEventsType (isFailedReason : String → List String → Bool)
    (FailedReasonPartials : List String) (events : List Event) : List Event :=
  (List.range events.length).foldl
    (fun evs i =>
      match evs[i]? with
      | none => evs
      | some e =>
        if isFailedReason e.Reason FailedReasonPartials then
          evs.set i { e with Type_ := EventTypeWarning }
        else
          evs.set i { e with Type_ := EventTypeNormal })
    events

/-- The loop of `IsTypeFilled`: false at the first event whose `Type` has length zero. -/
def IsTypeFilled.loop : List Event → Bool
  | [] => true
  | event :: rest => if event.Type_.utf8ByteSize = 0 then false else IsTypeFilled.loop rest

/-- The function `IsTypeFilled`. -/
def IsTypeFilled (events : List Event) : Bool :=
  if events.length = 0 then false else IsTypeFilled.loop events

/-- The function `ToEvent`. -/
def ToEvent {OM TM : Type} (x : Externals OM TM) (event : Event) : CommonEvent OM TM :=
  { ObjectMeta := x.NewObjectMeta event.ObjectMeta
    TypeMeta := x.NewTypeMeta x.ResourceKindEvent
    Message := event.Message
    SourceComponent := event.Source.Component
    SourceHost := event.Source.Host
    SubObject := event.InvolvedObject.FieldPath
    Count := event.Count
    FirstSeen := event.FirstTimestamp
    LastSeen := event.LastTimestamp
    Reason := event.Reason
    Type_ := event.Type_ }

/-- The method `EventCell.GetProperty`; `none` is the nil `ComparableValue`. -/
def EventCell.GetProperty (self : EventCell) (name : PropertyName) : Option ComparableValue :=
  if name = NameProperty then
    some (ComparableValue.StdComparableString self.ObjectMeta.Name)
  else if name = CreationTimestampProperty then
    some (ComparableValue.StdComparableTime self.ObjectMeta.CreationTimestamp.Time)
  else if name = NamespaceProperty then
    some (ComparableValue.StdComparableString self.ObjectMeta.Namespace)
  else
    none

/-- The function `toCells`. -/
def toCells (std : List Event) : List DataCell :=
  std.map (fun e => DataCell.eventCell e)

/-- The function `fromCells`; `none` is the panic of the type assertion `cells[i].(EventCell)`. -/
def fromCells : List DataCell → Option (List Event)
  | [] => some []
  | DataCell.eventCell c :: cells =>
    match fromCells cells with
    | none => none
    | some std => some (c :: std)
  | DataCell.otherCell _ :: _ => none

/-- The function `CreateEventList`; `none` is a panic inside `fromCells`. -/
def CreateEventList {OM TM : Type} (x : Externals OM TM) (events : List Event)
    (dsQuery : DataSelectQuery) : Option (EventList OM TM) :=
  let eventList : EventList OM TM :=
    { Events := [], ListMeta := { TotalItems := events.length } }
  match fromCells (x.GenericDataSelect (toCells events) dsQuery) with
  | none => none
  | some events =>
    some (events.foldl
      (fun eventList event =>
        let eventDetail := ToEvent x event
        { eventList with Events := eventList.Events ++ [eventDetail] })
      eventList)

/-- The function `GetNodeEvents`: the returned pair of the event list and the error; the outer
`none` is a panic (`events.Items` on a nil pointer, or inside `CreateEventList`). The call
`log.Print(err)` has no effect on the result. -/
def GetNodeEvents {OM TM : Type} (x : Externals OM TM) (client : Client)
    (dsQuery : DataSelectQuery) (nodeName : String) :
    Option (EventList OM TM × Option GoError) :=
  let eventList : EventList OM TM := { Events := [], ListMeta := { TotalItems := 0 } }
  let node := (client.NodesGet nodeName).1
  match client.GetReference node with
  | .ok ref =>
    let ref := { ref with UID := ref.Name }
    match (client.EventsSearch NamespaceAll ref).1 with
    | none => none
    | some events =>
      match CreateEventList x events.Items dsQuery with
      | none => none
      | some eventList => some (eventList, none)
  | .error _ => some (eventList, none)

/-- The function `GetNamespaceEvents`: the returned pair of the event list and the error; the
outer `none` is a panic (`events.Items` on a nil pointer, or inside `CreateEventList`). -/
def GetNamespaceEvents {OM TM : Type} (x : Externals OM TM) (client : Client)
    (dsQuery : DataSelectQuery) (ns : String) :
    Option (EventList OM TM × Option GoError) :=
  match (client.EventsList ns).1 with
  | none => none
  | some events =>
    match CreateEventList x events.Items dsQuery with
    | none => none
    | some eventList => some (eventList, none)

/-! ## Helpers of the event package modelled from the specification -/

/-- The test `strings.HasPrefix` on character sequences. -/
def startsWith : List Char → List Char → Bool
  | _, [] => true
  | [], _ :: _ => false
  | c :: s, p :: ps => c == p && startsWith s ps

/-- The test `strings.Contains` on character sequences. -/
def containsSub : List Char → List Char → Bool
  | [], sub => sub.isEmpty
  | c :: s, sub => startsWith (c :: s) sub || containsSub s sub

/-- Modelled from the spec: the helper `isFailedReason` of the event package (section 4.7):
the reason text is evaluated against an ordered list of substring patterns, and the answer is
true at the first pattern that is a substring of the reason, false when none is. -/
def isFailedReason (reason : String) (partials : List String) : Bool :=
  match partials with
  | [] => false
  | p :: rest => if containsSub reason.data p.data then true else isFailedReason reason rest

/-- The membership test of the identity join: some pod of the list has the given UID. -/
def anyPodHasUID (uid : String) : List Pod → Bool
  | [] => false
  | pod :: pods => if pod.ObjectMeta.UID = uid then true else anyPodHasUID uid pods

/-- Modelled from the spec: the helper `filterEventsByPodsUID` of the event package (section
4.7, identity join): the subsequence of the events whose referenced-object identity token
matches the identity token of some pod of the pods collection, by a double loop. -/
def filterEventsByPodsUID (events : List Event) (pods : List Pod) : List Event :=
  match events with
  | [] => []
  | event :: rest =>
    if anyPodHasUID event.InvolvedObject.UID pods then
      event :: filterEventsByPodsUID rest pods
    else
      filterEventsByPodsUID rest pods

/-- Modelled from the spec: the Pagination Stage (section 4.5) alone, as a sample data selector:
the slice from `pageIndex * pageSize` of length at most `pageSize`, and the whole collection
when the page size is zero. -/
def paginateOnly (cells : List DataCell) (q : DataSelectQuery) : List DataCell :=
  if q.PageSize = 0 then cells else (cells.drop (q.PageIndex * q.PageSize)).take q.PageSize

/-! ## Sample data -/

/-- An event with the given reason and type, all other fields empty. -/
def mkEvent (reason type_ : String) : Event :=
  { ObjectMeta := { Name := "", Namespace := "", UID := "", CreationTimestamp := { Time := 0 } }
    InvolvedObject := { Kind := "", Namespace := "", Name := "", UID := "", FieldPath := "" }
    Reason := reason
    Message := ""
    Source := { Component := "", Host := "" }
    FirstTimestamp := { Time := 0 }
    LastTimestamp := { Time := 0 }
    Count := 0
    Type_ := type_ }

/-- An event that references the object with the given UID. -/
def eventOf (uid : String) : Event :=
  { mkEvent "Created" "" with
    InvolvedObject := { Kind := "Pod", Namespace := "", Name := "", UID := uid, FieldPath := "" } }

/-- A pod with the given UID. -/
def podOf (uid : String) : Pod :=
  { ObjectMeta := { Name := "", Namespace := "", UID := uid, CreationTimestamp := { Time := 0 } } }

/-- Externals that keep the api metadata and the kind as they are, with the given selector. -/
def sampleExternals (gds : List DataCell → DataSelectQuery → List DataCell) :
    Externals ObjectMeta String :=
  { NewObjectMeta := fun m => m
    NewTypeMeta := fun k => k
    ResourceKindEvent := "event"
    GenericDataSelect := gds }

/-- The query with no filter, no sort key and no pagination. -/
def emptyQuery : DataSelectQuery :=
  { Filters := [], SortKeys := [], PageIndex := 0, PageSize := 0 }

/-- A client every call of which fails the way the generated Kubernetes client does: the
result pointer is an empty object and the error is not nil. `GetReference` rejects a nil node
and a node without a name. -/
def failingClient : Client :=
  { NodesGet := fun _ =>
      (some { ObjectMeta :=
          { Name := "", Namespace := "", UID := "", CreationTimestamp := { Time := 0 } } },
        some { msg := "nodes: connection refused" })
    EventsSearch := fun _ _ => (some { Items := [] }, some { msg := "events: connection refused" })
    EventsList := fun _ => (some { Items := [] }, some { msg := "events: connection refused" })
    GetReference := fun node =>
      match node with
      | none => .error { msg := "nil object" }
      | some n =>
        if n.ObjectMeta.Name = "" then .error { msg := "selfLink was empty" }
        else .ok { Kind := "Node", Namespace := "", Name := n.ObjectMeta.Name,
                   UID := n.ObjectMeta.UID, FieldPath := "" } }

/-- A client whose node lookup succeeds and whose event search fails. -/
def searchFailingClient : Client :=
  { failingClient with
    NodesGet := fun nodeName =>
      (some { ObjectMeta :=
          { Name := nodeName, Namespace := "", UID := "", CreationTimestamp := { Time := 0 } } },
        none) }

/-- Seven events named by their reasons. -/
def sevenEvents : List Event :=
  [mkEvent "r1" "", mkEvent "r2" "", mkEvent "r3" "", mkEvent "r4" "", mkEvent "r5" "",
   mkEvent "r6" "", mkEvent "r7" ""]

/-! ## Lemmas: the loops as list functions -/

theorem getElem?_append_cons_length {α : Type} (A B : List α) (x : α) :
    (A ++ x :: B)[A.length]? = some x := by
  induction A with
  | nil => simp
  | cons a A ih => simpa using ih

theorem set_append_cons_length {α : Type} (A B : List α) (x y : α) :
    (A ++ x :: B).set A.length y = A ++ y :: B := by
  induction A with
  | nil => rfl
  | cons a A ih => simp [ih]

theorem foldl_range_set {α : Type} (g : α → α) (l : List α) :
    ∀ n, n ≤ l.length →
      (List.range n).foldl
        (fun evs i => match evs[i]? with
          | none => evs
          | some e => evs.set i (g e)) l
      = (l.take n).map g ++ l.drop n := by
  intro n
  induction n with
  | zero => intro _; simp
  | succ n ih =>
    intro hn
    have hlt : n < l.length := hn
    rw [List.range_succ, List.foldl_append, ih (Nat.le_of_lt hlt)]
    have hdrop : l.drop n = l[n] :: l.drop (n + 1) := List.drop_eq_getElem_cons hlt
    have hlen : ((l.take n).map g).length = n := by
      rw [List.length_map, List.length_take]; exact Nat.min_eq_left (Nat.le_of_lt hlt)
    have htake : l.take (n + 1) = l.take n ++ [l[n]] := by
      rw [List.take_succ, List.getElem?_eq_getElem hlt]; rfl
    rw [hdrop, htake, List.map_append, List.map_cons, List.map_nil]
    generalize List.map g (List.take n l) = A at hlen ⊢
    subst hlen
    simp only [List.foldl_cons, List.foldl_nil, getElem?_append_cons_length,
      set_append_cons_length]
    simp

theorem FillEventsType_eq_map (f : String → List String → Bool) (partials : List String)
    (events : List Event) :
    FillEventsType f partials events =
      events.map (fun e =>
        { e with Type_ := if f e.Reason partials then EventTypeWarning else EventTypeNormal }) := by
  have h := foldl_range_set
    (fun e : Event =>
      { e with Type_ := if f e.Reason partials then EventTypeWarning else EventTypeNormal })
    events events.length (Nat.le_refl _)
  simp only [List.take_length, List.drop_length, List.append_nil] at h
  rw [← h]
  unfold FillEventsType
  congr 1
  funext evs i
  cases evs[i]? with
  | none => rfl
  | some e =>
    simp only
    split <;> rfl

theorem utf8ByteSize_go_pos (c : Char) (cs : List Char) :
    0 < String.utf8ByteSize.go (c :: cs) := by
  have h := Char.utf8Size_pos c
  simp only [String.utf8ByteSize.go]
  omega

theorem utf8ByteSize_eq_zero_iff (s : String) : s.utf8ByteSize = 0 ↔ s = "" := by
  cases s with
  | mk data =>
    cases data with
    | nil => simp [String.utf8ByteSize, String.utf8ByteSize.go]
    | cons c cs =>
      have h := utf8ByteSize_go_pos c cs
      constructor
      · intro h0
        simp only [String.utf8ByteSize] at h0
        omega
      · intro h0
        exact absurd (congrArg String.data h0) (by simp)

theorem IsTypeFilled_loop_iff (events : List Event) :
    IsTypeFilled.loop events = true ↔ ∀ e ∈ events, e.Type_ ≠ "" := by
  induction events with
  | nil => simp [IsTypeFilled.loop]
  | cons e rest ih =>
    simp only [IsTypeFilled.loop, List.mem_cons, forall_eq_or_imp]
    by_cases h : e.Type_.utf8ByteSize = 0
    · have h2 : e.Type_ = "" := (utf8ByteSize_eq_zero_iff _).1 h
      rw [if_pos h]
      simp [h2]
    · have h2 : e.Type_ ≠ "" := fun hc => h ((utf8ByteSize_eq_zero_iff _).2 hc)
      rw [if_neg h, ih]
      simp [h2]

theorem IsTypeFilled_iff (events : List Event) :
    IsTypeFilled events = true ↔ events ≠ [] ∧ ∀ e ∈ events, e.Type_ ≠ "" := by
  unfold IsTypeFilled
  cases events with
  | nil => simp
  | cons e rest =>
    rw [if_neg (by simp), IsTypeFilled_loop_iff]
    simp

theorem fromCells_toCells (events : List Event) : fromCells (toCells events) = some events := by
  induction events with
  | nil => rfl
  | cons e rest ih =>
    simp only [toCells, List.map_cons, fromCells] at ih ⊢
    rw [ih]

theorem fromCells_isSome (cells : List DataCell)
    (h : ∀ c ∈ cells, ∃ e : EventCell, c = DataCell.eventCell e) :
    ∃ std, fromCells cells = some std ∧ std.length = cells.length := by
  induction cells with
  | nil => exact ⟨[], rfl, rfl⟩
  | cons c cells ih =>
    obtain ⟨e, he⟩ := h c (List.mem_cons_self _ _)
    obtain ⟨std, hs, hl⟩ := ih (fun d hd => h d (List.mem_cons_of_mem _ hd))
    subst he
    refine ⟨e :: std, ?_, ?_⟩
    · simp only [fromCells, hs]
    · simp [hl]

theorem foldl_append_events {OM TM : Type} (x : Externals OM TM) (events : List Event)
    (acc : EventList OM TM) :
    events.foldl
      (fun eventList event =>
        let eventDetail := ToEvent x event
        { eventList with Events := eventList.Events ++ [eventDetail] }) acc
    = { ListMeta := acc.ListMeta, Events := acc.Events ++ events.map (ToEvent x) } := by
  induction events generalizing acc with
  | nil => simp
  | cons e rest ih =>
    simp only [List.foldl_cons, List.map_cons]
    rw [ih]
    simp

theorem CreateEventList_eq {OM TM : Type} (x : Externals OM TM) (events : List Event)
    (dsQuery : DataSelectQuery) :
    CreateEventList x events dsQuery =
      (fromCells (x.GenericDataSelect (toCells events) dsQuery)).map
        (fun selected =>
          { ListMeta := { TotalItems := events.length }, Events := selected.map (ToEvent x) }) := by
  unfold CreateEventList
  cases fromCells (x.GenericDataSelect (toCells events) dsQuery) with
  | none => rfl
  | some selected =>
    simp only [Option.map_some']
    rw [foldl_append_events]
    simp

theorem startsWith_iff (s sub : List Char) : startsWith s sub = true ↔ sub <+: s := by
  induction s generalizing sub with
  | nil =>
    cases sub with
    | nil => simp [startsWith]
    | cons p ps => simp [startsWith]
  | cons c s ih =>
    cases sub with
    | nil => simp [startsWith]
    | cons p ps =>
      simp only [startsWith, Bool.and_eq_true, beq_iff_eq, ih, List.cons_prefix_cons]
      constructor
      · rintro ⟨h1, h2⟩; exact ⟨h1.symm, h2⟩
      · rintro ⟨h1, h2⟩; exact ⟨h1.symm, h2⟩

theorem containsSub_iff (s sub : List Char) : containsSub s sub = true ↔ sub <:+: s := by
  induction s with
  | nil =>
    cases sub with
    | nil => simp [containsSub]
    | cons p ps => simp [containsSub]
  | cons c s ih =>
    simp only [containsSub, Bool.or_eq_true, startsWith_iff, ih, List.infix_cons_iff]

theorem isFailedReason_iff (reason : String) (partials : List String) :
    isFailedReason reason partials = true ↔ ∃ p ∈ partials, p.data <:+: reason.data := by
  induction partials with
  | nil => simp [isFailedReason]
  | cons p rest ih =>
    simp only [isFailedReason, List.mem_cons, exists_eq_or_imp, ← containsSub_iff]
    by_cases h : containsSub reason.data p.data = true
    · simp [h]
    · simp only [h, if_false, false_or, Bool.false_eq_true]
      rw [ih]
      simp only [containsSub_iff]

theorem anyPodHasUID_iff (uid : String) (pods : List Pod) :
    anyPodHasUID uid pods = true ↔ ∃ pod ∈ pods, pod.ObjectMeta.UID = uid := by
  induction pods with
  | nil => simp [anyPodHasUID]
  | cons pod pods ih =>
    simp only [anyPodHasUID, List.mem_cons, exists_eq_or_imp]
    by_cases h : pod.ObjectMeta.UID = uid
    · simp [h]
    · simp [h, ih]

theorem filterEventsByPodsUID_eq_filter (events : List Event) (pods : List Pod) :
    filterEventsByPodsUID events pods =
      events.filter (fun e => anyPodHasUID e.InvolvedObject.UID pods) := by
  induction events with
  | nil => rfl
  | cons e rest ih =>
    simp only [filterEventsByPodsUID, List.filter_cons, ih]

theorem paginateOnly_mem (cells : List DataCell) (q : DataSelectQuery) :
    ∀ c ∈ paginateOnly cells q, c ∈ cells := by
  intro c hc
  unfold paginateOnly at hc
  split at hc
  · exact hc
  · exact List.mem_of_mem_drop (List.mem_of_mem_take hc)

theorem getElem?_setType (f : String → List String → Bool) (partials : List String)
    (events : List Event) (i : Nat) :
    (FillEventsType f partials events)[i]? =
      (events[i]?).map (fun e =>
        { e with Type_ := if f e.Reason partials then EventTypeWarning else EventTypeNormal }) := by
  rw [FillEventsType_eq_map, List.getElem?_map]

theorem GetNamespaceEvents_error_nil {OM TM : Type} (x : Externals OM TM) (client : Client)
    (q : DataSelectQuery) (ns : String) (r : EventList OM TM × Option GoError)
    (h : GetNamespaceEvents x client q ns = some r) : r.2 = none := by
  unfold GetNamespaceEvents at h
  split at h
  · cases h
  · split at h
    · cases h
    · cases h; rfl

theorem GetNodeEvents_error_nil {OM TM : Type} (x : Externals OM TM) (client : Client)
    (q : DataSelectQuery) (nodeName : String) (r : EventList OM TM × Option GoError)
    (h : GetNodeEvents x client q nodeName = some r) : r.2 = none := by
  unfold GetNodeEvents at h
  simp only at h
  split at h
  · split at h
    · cases h
    · split at h
      · cases h
      · cases h; rfl
  · cases h; rfl

/-! ## Theorems of the claims -/

/-- C1: for every list of events, `FillEventsType` returns a list of the same length and order
whose i-th event is the i-th input event with `Type` set to Warning when `isFailedReason` holds
of its reason and the pattern list, and to Normal otherwise; with the patterns `Failed` and
`BackOff` matched as substrings, the reasons `FailedScheduling`, `Created`, `BackOff` give
Warning, Normal, Warning. -/
theorem FillEventsType_classifies (isFailed : String → List String → Bool)
    (FailedReasonPartials : List String) (events : List Event) :
    (FillEventsType isFailed FailedReasonPartials events).length = events.length ∧
    (∀ i : Nat, (FillEventsType isFailed FailedReasonPartials events)[i]? =
      (events[i]?).map (fun e =>
        { e with Type_ := if isFailed e.Reason FailedReasonPartials then EventTypeWarning
                          else EventTypeNormal })) ∧
    (FillEventsType isFailedReason ["Failed", "BackOff"]
        [mkEvent "FailedScheduling" "", mkEvent "Created" "", mkEvent "BackOff" ""]).map
      (fun e => e.Type_) = [EventTypeWarning, EventTypeNormal, EventTypeWarning] := by
  refine ⟨?_, ?_, ?_⟩
  · rw [FillEventsType_eq_map, List.length_map]
  · intro i
    exact getElem?_setType isFailed FailedReasonPartials events i
  · decide

/-- C2 (counterexample): two events with the same reason and the explicit types Warning and
Normal do not both keep their type, whatever `isFailedReason` answers; with the substring
matcher and the patterns `Failed`, `BackOff` the explicit Warning of a `Created` event becomes
Normal. -/
theorem FillEventsType_overrides_explicit_type :
    (mkEvent "Created" "Warning").Type_ ≠ "" ∧ (mkEvent "Created" "Normal").Type_ ≠ "" ∧
    (∀ (isFailed : String → List String → Bool) (partials : List String),
      (FillEventsType isFailed partials
          [mkEvent "Created" "Warning", mkEvent "Created" "Normal"]).map (fun e => e.Type_)
        ≠ ["Warning", "Normal"]) ∧
    (FillEventsType isFailedReason ["Failed", "BackOff"]
        [mkEvent "Created" "Warning", mkEvent "Created" "Normal"]).map (fun e => e.Type_)
      = ["Normal", "Normal"] := by
  refine ⟨by decide, by decide, ?_, by decide⟩
  intro isFailed partials
  rw [FillEventsType_eq_map]
  cases h : isFailed "Created" partials <;> simp [mkEvent, h, EventTypeWarning, EventTypeNormal]

/-- C2 (amended): `FillEventsType` sets the `Type` of every event from its reason alone, also
when a `Type` was present: the i-th result differs from the i-th input at most in `Type`, its
`Type` is Warning when `isFailedReason` holds of the reason and Normal otherwise, and so the
event keeps the `Type` it had exactly when that already was the inferred one. -/
theorem FillEventsType_type_from_reason (isFailed : String → List String → Bool)
    (FailedReasonPartials : List String) (events : List Event) (i : Nat) (e : Event)
    (he : events[i]? = some e) :
    ∃ r, (FillEventsType isFailed FailedReasonPartials events)[i]? = some r ∧
      r = { e with Type_ := r.Type_ } ∧
      r.Type_ = (if isFailed e.Reason FailedReasonPartials then EventTypeWarning
                 else EventTypeNormal) ∧
      (r.Type_ = e.Type_ ↔
        e.Type_ = (if isFailed e.Reason FailedReasonPartials then EventTypeWarning
                   else EventTypeNormal)) := by
  refine ⟨{ e with Type_ := if isFailed e.Reason FailedReasonPartials then EventTypeWarning
                           else EventTypeNormal }, ?_, rfl, rfl, ?_⟩
  · rw [getElem?_setType, he]; rfl
  · exact ⟨fun h => h.symm, fun h => h.symm⟩

/-- Witness of C2 (amended): the second of two events, a `Created` event of explicit type
Warning, under the patterns `Failed`, `BackOff`. -/
theorem FillEventsType_type_from_reason_witness :
    [mkEvent "BackOff" "", mkEvent "Created" "Warning"][1]? = some (mkEvent "Created" "Warning") ∧
    ∃ r, (FillEventsType isFailedReason ["Failed", "BackOff"]
        [mkEvent "BackOff" "", mkEvent "Created" "Warning"])[1]? = some r ∧
      r = { mkEvent "Created" "Warning" with Type_ := r.Type_ } ∧
      r.Type_ = (if isFailedReason (mkEvent "Created" "Warning").Reason ["Failed", "BackOff"]
                 then EventTypeWarning else EventTypeNormal) ∧
      (r.Type_ = (mkEvent "Created" "Warning").Type_ ↔
        (mkEvent "Created" "Warning").Type_ =
          (if isFailedReason (mkEvent "Created" "Warning").Reason ["Failed", "BackOff"]
           then EventTypeWarning else EventTypeNormal)) :=
  ⟨rfl, FillEventsType_type_from_reason isFailedReason ["Failed", "BackOff"]
    [mkEvent "BackOff" "", mkEvent "Created" "Warning"] 1 (mkEvent "Created" "Warning") rfl⟩

/-- C3 (counterexample): on the empty list every event has a non-empty `Type`, and
`IsTypeFilled` returns false. -/
theorem IsTypeFilled_nil_false :
    IsTypeFilled [] = false ∧ (∀ e ∈ ([] : List Event), e.Type_ ≠ "") ∧
    ¬ (IsTypeFilled [] = true ↔ ∀ e ∈ ([] : List Event), e.Type_ ≠ "") := by
  refine ⟨rfl, ?_, ?_⟩
  · intro e he; cases he
  · intro h
    have : IsTypeFilled [] = true := h.2 (fun e he => by cases he)
    exact absurd this (by decide)

/-- C3 (amended): for every list of events, `IsTypeFilled` returns true if and only if the list
is not empty and every event in it has a non-empty `Type`. -/
theorem IsTypeFilled_true_iff (events : List Event) :
    IsTypeFilled events = true ↔ events ≠ [] ∧ ∀ e ∈ events, e.Type_ ≠ "" :=
  IsTypeFilled_iff events

/-- C4: for every event record, `EventCell.GetProperty` (a total function) returns the string
value of the name for `NameProperty`, the time value of the creation timestamp for
`CreationTimestampProperty`, the string value of the namespace for `NamespaceProperty`, and the
nil sentinel for every other property name. -/
theorem GetProperty_cases (self : EventCell) :
    EventCell.GetProperty self NameProperty =
      some (ComparableValue.StdComparableString self.ObjectMeta.Name) ∧
    EventCell.GetProperty self CreationTimestampProperty =
      some (ComparableValue.StdComparableTime self.ObjectMeta.CreationTimestamp.Time) ∧
    EventCell.GetProperty self NamespaceProperty =
      some (ComparableValue.StdComparableString self.ObjectMeta.Namespace) ∧
    (∀ name : PropertyName, name ≠ NameProperty → name ≠ CreationTimestampProperty →
      name ≠ NamespaceProperty → EventCell.GetProperty self name = none) := by
  refine ⟨?_, ?_, ?_, ?_⟩
  · simp [EventCell.GetProperty]
  · have h : CreationTimestampProperty ≠ NameProperty := by decide
    simp [EventCell.GetProperty, h]
  · have h1 : NamespaceProperty ≠ NameProperty := by decide
    have h2 : NamespaceProperty ≠ CreationTimestampProperty := by decide
    simp [EventCell.GetProperty, h1, h2]
  · intro name h1 h2 h3
    simp [EventCell.GetProperty, h1, h2, h3]

/-- Witness of C4: the property name `reason` is none of the three supported names, and an
event cell answers it with the nil sentinel. -/
theorem GetProperty_cases_witness :
    ("reason" : PropertyName) ≠ NameProperty ∧
    ("reason" : PropertyName) ≠ CreationTimestampProperty ∧
    ("reason" : PropertyName) ≠ NamespaceProperty ∧
    EventCell.GetProperty (mkEvent "Created" "Normal") "reason" = none :=
  ⟨by decide, by decide, by decide,
    (GetProperty_cases (mkEvent "Created" "Normal")).2.2.2 "reason"
      (by decide) (by decide) (by decide)⟩

/-- C5: for every list of events and every data selector that returns only cells it was given,
`CreateEventList` returns a list for a query and for the same query at any other page index,
both with `TotalItems` equal to the length of the input event list. -/
theorem CreateEventList_TotalItems {OM TM : Type} (x : Externals OM TM) (events : List Event)
    (dsQuery : DataSelectQuery) (pageIndex : Nat)
    (hsel : ∀ cells q, ∀ c ∈ x.GenericDataSelect cells q, c ∈ cells) :
    ∃ l1 l2, CreateEventList x events dsQuery = some l1 ∧
      CreateEventList x events { dsQuery with PageIndex := pageIndex } = some l2 ∧
      l1.ListMeta.TotalItems = events.length ∧
      l2.ListMeta.TotalItems = l1.ListMeta.TotalItems := by
  have hcells : ∀ q, ∀ c ∈ x.GenericDataSelect (toCells events) q,
      ∃ e : EventCell, c = DataCell.eventCell e := by
    intro q c hc
    have hmem := hsel (toCells events) q c hc
    simp only [toCells, List.mem_map] at hmem
    obtain ⟨e, _, he⟩ := hmem
    exact ⟨e, he.symm⟩
  obtain ⟨s1, hs1, _⟩ := fromCells_isSome _ (hcells dsQuery)
  obtain ⟨s2, hs2, _⟩ := fromCells_isSome _ (hcells { dsQuery with PageIndex := pageIndex })
  refine ⟨{ ListMeta := { TotalItems := events.length }, Events := s1.map (ToEvent x) },
    { ListMeta := { TotalItems := events.length }, Events := s2.map (ToEvent x) },
    ?_, ?_, rfl, rfl⟩
  · rw [CreateEventList_eq, hs1]; rfl
  · rw [CreateEventList_eq, hs2]; rfl

/-- Witness of C5: seven events under pagination alone, page size 3, pages 2 and 5. -/
theorem CreateEventList_TotalItems_witness :
    (∀ cells q, ∀ c ∈ (sampleExternals paginateOnly).GenericDataSelect cells q, c ∈ cells) ∧
    ∃ l1 l2,
      CreateEventList (sampleExternals paginateOnly) sevenEvents
        { emptyQuery with PageIndex := 2, PageSize := 3 } = some l1 ∧
      CreateEventList (sampleExternals paginateOnly) sevenEvents
        { ({ emptyQuery with PageIndex := 2, PageSize := 3 } : DataSelectQuery) with
          PageIndex := 5 } = some l2 ∧
      l1.ListMeta.TotalItems = sevenEvents.length ∧
      l2.ListMeta.TotalItems = l1.ListMeta.TotalItems :=
  ⟨paginateOnly_mem,
    CreateEventList_TotalItems (sampleExternals paginateOnly) sevenEvents
      { emptyQuery with PageIndex := 2, PageSize := 3 } 5 paginateOnly_mem⟩

/-- C6 (the code at the failing inputs): with a client whose event `List` call fails,
`GetNamespaceEvents` returns a nil error; with a client whose node `Get` fails, and with one
whose node `Get` succeeds and whose event `Search` fails, `GetNodeEvents` returns a nil error;
and no client and no query make either function return an error that is not nil. -/
theorem GetNamespaceEvents_GetNodeEvents_drop_errors :
    (failingClient.EventsList "default").2 = some { msg := "events: connection refused" } ∧
    GetNamespaceEvents (sampleExternals paginateOnly) failingClient emptyQuery "default" =
      some ({ ListMeta := { TotalItems := 0 }, Events := [] }, none) ∧
    (failingClient.NodesGet "node-1").2 = some { msg := "nodes: connection refused" } ∧
    GetNodeEvents (sampleExternals paginateOnly) failingClient emptyQuery "node-1" =
      some ({ ListMeta := { TotalItems := 0 }, Events := [] }, none) ∧
    (searchFailingClient.NodesGet "node-1").2 = none ∧
    (searchFailingClient.EventsSearch NamespaceAll
        { Kind := "Node", Namespace := "", Name := "node-1", UID := "node-1", FieldPath := "" }).2
      = some { msg := "events: connection refused" } ∧
    GetNodeEvents (sampleExternals paginateOnly) searchFailingClient emptyQuery "node-1" =
      some ({ ListMeta := { TotalItems := 0 }, Events := [] }, none) ∧
    (∀ (x : Externals ObjectMeta String) (client : Client) (q : DataSelectQuery)
        (name : String) (err : GoError),
      (GetNamespaceEvents x client q name).map Prod.snd ≠ some (some err) ∧
      (GetNodeEvents x client q name).map Prod.snd ≠ some (some err)) := by
  refine ⟨rfl, by decide, rfl, by decide, rfl, rfl, by decide, ?_⟩
  intro x client q name err
  constructor
  · intro h
    cases hr : GetNamespaceEvents x client q name with
    | none => rw [hr] at h; simp at h
    | some r =>
      have hnil := GetNamespaceEvents_error_nil _ client q name r hr
      rw [hr] at h
      simp [hnil] at h
  · intro h
    cases hr : GetNodeEvents x client q name with
    | none => rw [hr] at h; simp at h
    | some r =>
      have hnil := GetNodeEvents_error_nil _ client q name r hr
      rw [hr] at h
      simp [hnil] at h

/-- C7: `GetEvents` returns the error `err` exactly when the field selector fails to parse with
`err` or it parses and the event-list fetch reports `err`, and returns a list (with a nil error)
exactly when both succeed, the list being the fetched items; `GetPodsEvents` returns the error
`err` exactly when the pod-list fetch reports `err` or it succeeds and the event-list fetch
reports `err`, and returns a list exactly when both fetches succeed. -/
theorem GetEvents_GetPodsEvents_error_iff {Sel : Type}
    (ParseSelector : String → Except GoError Sel)
    (GetEventListChannelWithOptions : String → Sel → Except GoError ApiEventList)
    (filterEvents : List Event → List Pod → List Event)
    (GetPodListChannelWithOptions : String → List (String × String) → Except GoError ApiPodList)
    (GetEventListChannel : String → Except GoError ApiEventList)
    (ns resourceName : String) (resourceSelector : List (String × String)) :
    (∀ err, GetEvents ParseSelector GetEventListChannelWithOptions ns resourceName = .error err ↔
      (ParseSelector ("involvedObject.name=" ++ resourceName) = .error err ∨
        ∃ sel, ParseSelector ("involvedObject.name=" ++ resourceName) = .ok sel ∧
          GetEventListChannelWithOptions ns sel = .error err)) ∧
    (∀ items, GetEvents ParseSelector GetEventListChannelWithOptions ns resourceName = .ok items ↔
      ∃ sel eventList, ParseSelector ("involvedObject.name=" ++ resourceName) = .ok sel ∧
        GetEventListChannelWithOptions ns sel = .ok eventList ∧ items = eventList.Items) ∧
    (∀ err, GetPodsEvents filterEvents GetPodListChannelWithOptions GetEventListChannel ns
        resourceSelector = .error err ↔
      (GetPodListChannelWithOptions ns resourceSelector = .error err ∨
        ∃ podList, GetPodListChannelWithOptions ns resourceSelector = .ok podList ∧
          GetEventListChannel ns = .error err)) ∧
    (∀ items, GetPodsEvents filterEvents GetPodListChannelWithOptions GetEventListChannel ns
        resourceSelector = .ok items ↔
      ∃ podList eventList, GetPodListChannelWithOptions ns resourceSelector = .ok podList ∧
        GetEventListChannel ns = .ok eventList ∧
        items = filterEvents eventList.Items podList.Items) := by
  refine ⟨?_, ?_, ?_, ?_⟩
  · intro err
    unfold GetEvents
    cases hp : ParseSelector ("involvedObject.name=" ++ resourceName) with
    | error e => simp
    | ok sel =>
      cases hf : GetEventListChannelWithOptions ns sel with
      | error e => simp [hf]
      | ok l => simp [hf]
  · intro items
    unfold GetEvents
    cases hp : ParseSelector ("involvedObject.name=" ++ resourceName) with
    | error e => simp
    | ok sel =>
      cases hf : GetEventListChannelWithOptions ns sel with
      | error e => simp [hf]
      | ok l => simp [hf, eq_comm]
  · intro err
    unfold GetPodsEvents
    cases hp : GetPodListChannelWithOptions ns resourceSelector with
    | error e => simp
    | ok pods =>
      cases hf : GetEventListChannel ns with
      | error e => simp
      | ok l => simp
  · intro items
    unfold GetPodsEvents
    cases hp : GetPodListChannelWithOptions ns resourceSelector with
    | error e => simp
    | ok pods =>
      cases hf : GetEventListChannel ns with
      | error e => simp
      | ok l => simp [eq_comm]

/-- C8: when both fetches succeed, `GetPodsEvents` with the identity join returns a list that is
a subsequence of the fetched events, that contains an event exactly when the event was fetched
and the UID of its involved object is the UID of some fetched pod, and that is the fetched
events filtered, in order, by that test. -/
theorem GetPodsEvents_identity_join
    (GetPodListChannelWithOptions : String → List (String × String) → Except GoError ApiPodList)
    (GetEventListChannel : String → Except GoError ApiEventList)
    (ns : String) (resourceSelector : List (String × String))
    (podList : ApiPodList) (eventList : ApiEventList)
    (hp : GetPodListChannelWithOptions ns resourceSelector = .ok podList)
    (he : GetEventListChannel ns = .ok eventList) :
    ∃ result,
      GetPodsEvents filterEventsByPodsUID GetPodListChannelWithOptions GetEventListChannel ns
        resourceSelector = .ok result ∧
      result.Sublist eventList.Items ∧
      (∀ e, e ∈ result ↔
        e ∈ eventList.Items ∧
          ∃ pod ∈ podList.Items, pod.ObjectMeta.UID = e.InvolvedObject.UID) ∧
      result = eventList.Items.filter
        (fun e => podList.Items.any (fun pod => pod.ObjectMeta.UID == e.InvolvedObject.UID)) := by
  have hany : ∀ e : Event, anyPodHasUID e.InvolvedObject.UID podList.Items =
      podList.Items.any (fun pod => pod.ObjectMeta.UID == e.InvolvedObject.UID) := by
    intro e
    rw [Bool.eq_iff_iff, anyPodHasUID_iff]
    simp
  refine ⟨filterEventsByPodsUID eventList.Items podList.Items, ?_, ?_, ?_, ?_⟩
  · unfold GetPodsEvents
    rw [hp, he]
  · rw [filterEventsByPodsUID_eq_filter]
    exact List.filter_sublist _
  · intro e
    rw [filterEventsByPodsUID_eq_filter, List.mem_filter, anyPodHasUID_iff]
  · rw [filterEventsByPodsUID_eq_filter]
    congr 1
    funext e
    exact hany e

/-- Witness of C8: events that reference the identities A, B, C and the pods B, D give the
event that references B and no other. -/
theorem GetPodsEvents_identity_join_witness :
    GetPodsEvents filterEventsByPodsUID
        (fun _ _ => .ok { Items := [podOf "B", podOf "D"] })
        (fun _ => .ok { Items := [eventOf "A", eventOf "B", eventOf "C"] })
        "default" [] = .ok [eventOf "B"] := by
  obtain ⟨result, hres, _, _, hfilter⟩ :=
    GetPodsEvents_identity_join
      (fun _ _ => .ok { Items := [podOf "B", podOf "D"] })
      (fun _ => .ok { Items := [eventOf "A", eventOf "B", eventOf "C"] })
      "default" [] { Items := [podOf "B", podOf "D"] }
      { Items := [eventOf "A", eventOf "B", eventOf "C"] } rfl rfl
  rw [hres, hfilter]
  exact congrArg Except.ok (by decide)

/-- C9: for every list of events and a query on which the data selector returns its input cells
unchanged, `CreateEventList` returns a list with `TotalItems` the number of input events and
with as many `Events`, the i-th of which is `ToEvent` of the i-th input event, with the reason,
type, message, count and first and last timestamps of that event. -/
theorem CreateEventList_no_selection {OM TM : Type} (x : Externals OM TM) (events : List Event)
    (dsQuery : DataSelectQuery)
    (hid : x.GenericDataSelect (toCells events) dsQuery = toCells events) :
    ∃ l, CreateEventList x events dsQuery = some l ∧
      l.ListMeta.TotalItems = events.length ∧
      l.Events.length = events.length ∧
      (∀ i : Nat, l.Events[i]? = (events[i]?).map (ToEvent x)) ∧
      (∀ (i : Nat) (e : Event), events[i]? = some e →
        ∃ d, l.Events[i]? = some d ∧ d.Reason = e.Reason ∧ d.Type_ = e.Type_ ∧
          d.Message = e.Message ∧ d.Count = e.Count ∧
          d.FirstSeen = e.FirstTimestamp ∧ d.LastSeen = e.LastTimestamp) := by
  refine ⟨{ ListMeta := { TotalItems := events.length }, Events := events.map (ToEvent x) },
    ?_, rfl, ?_, ?_, ?_⟩
  · rw [CreateEventList_eq, hid, fromCells_toCells]; rfl
  · simp
  · intro i
    simp
  · intro i e hi
    refine ⟨ToEvent x e, ?_, rfl, rfl, rfl, rfl, rfl, rfl⟩
    simp [hi]

/-- Witness of C9: three events and the query without filter, sort and pagination, under
pagination alone (which returns everything when the page size is zero). -/
theorem CreateEventList_no_selection_witness :
    (sampleExternals paginateOnly).GenericDataSelect
        (toCells [mkEvent "FailedScheduling" "Warning", mkEvent "Created" "Normal",
          mkEvent "BackOff" "Warning"]) emptyQuery
      = toCells [mkEvent "FailedScheduling" "Warning", mkEvent "Created" "Normal",
          mkEvent "BackOff" "Warning"] ∧
    ∃ l, CreateEventList (sampleExternals paginateOnly)
        [mkEvent "FailedScheduling" "Warning", mkEvent "Created" "Normal",
          mkEvent "BackOff" "Warning"] emptyQuery = some l ∧
      l.ListMeta.TotalItems = 3 ∧ l.Events.length = 3 ∧
      l.Events.map (fun d => (d.Reason, d.Type_)) =
        [("FailedScheduling", "Warning"), ("Created", "Normal"), ("BackOff", "Warning")] := by
  refine ⟨rfl, ?_⟩
  obtain ⟨l, hl, htotal, hlen, hget, _⟩ :=
    CreateEventList_no_selection (sampleExternals paginateOnly)
      [mkEvent "FailedScheduling" "Warning", mkEvent "Created" "Normal",
        mkEvent "BackOff" "Warning"] emptyQuery rfl
  refine ⟨l, hl, htotal, hlen, ?_⟩
  have hl2 : l.Events = [mkEvent "FailedScheduling" "Warning", mkEvent "Created" "Normal",
      mkEvent "BackOff" "Warning"].map (ToEvent (sampleExternals paginateOnly)) := by
    apply List.ext_getElem?
    intro i
    rw [hget i, List.getElem?_map]
  rw [hl2]
  rfl

/-- C10: for every non-empty list of events `IsTypeFilled` is true of the result of
`FillEventsType`, and `FillEventsType` is idempotent. -/
theorem FillEventsType_filled_and_idempotent (isFailed : String → List String → Bool)
    (FailedReasonPartials : List String) (events : List Event) :
    (events ≠ [] → IsTypeFilled (FillEventsType isFailed FailedReasonPartials events) = true) ∧
    FillEventsType isFailed FailedReasonPartials
        (FillEventsType isFailed FailedReasonPartials events)
      = FillEventsType isFailed FailedReasonPartials events := by
  constructor
  · intro hne
    rw [IsTypeFilled_iff, FillEventsType_eq_map]
    refine ⟨by simpa using hne, ?_⟩
    intro e he
    rw [List.mem_map] at he
    obtain ⟨e0, _, rfl⟩ := he
    simp only
    split <;> decide
  · rw [FillEventsType_eq_map isFailed FailedReasonPartials
      (FillEventsType isFailed FailedReasonPartials events), FillEventsType_eq_map,
      List.map_map]
    rfl

/-- Witness of C10: one event without a type. -/
theorem FillEventsType_filled_and_idempotent_witness :
    [mkEvent "BackOff" ""] ≠ [] ∧
    IsTypeFilled (FillEventsType isFailedReason ["Failed", "BackOff"] [mkEvent "BackOff" ""])
      = true :=
  ⟨by decide,
    (FillEventsType_filled_and_idempotent isFailedReason ["Failed", "BackOff"]
      [mkEvent "BackOff" ""]).1 (by decide)⟩

end Dashboard
